import Mathlib

/-!
Verification of the awdio frontend core: the segment/slide sequencer
(`useSegmentSequencer.ts` / `useSlideSequencer.ts`), the realtime channel
(`useWebSocket.ts`) and the voice-interrupt state machine
(`VoiceInterrupt.tsx`), shallowly embedded as pure Lean functions over
explicit state records.  Times are modelled as rationals (the TypeScript
code divides `duration_ms` by 1000 and compares with `>=`/`<`, which on
the values in scope is exact arithmetic).
-/

namespace Awdio

/-! ## Sequencer: derived start-time table and time resolution

`useSegmentSequencer.ts` lines 36-44: `segmentStartTimes` pushes the running
cumulative sum before adding each segment's `duration_ms / 1000`. -/

/-- Accumulator form of the `segmentStartTimes` loop: `times.push(cumulative);
cumulative += d`. -/
def startTimesFrom (c : ℚ) : List ℚ → List ℚ
  | [] => []
  | d :: ds => c :: startTimesFrom (c + d) ds

/-- `segmentStartTimes` of `useSegmentSequencer.ts` (durations already in
seconds, i.e. `duration_ms / 1000`). -/
def segmentStartTimes (durations : List ℚ) : List ℚ :=
  startTimesFrom 0 durations

/-- The descending scan of `findSegmentAtTime` (lines 122-132): for
`i = n-1, ..., 0` return the first `i` with `time >= startTimes[i]`,
else `0`. The `Nat` argument is the number of indices still to inspect. -/
def findSegDown (st : List ℚ) (time : ℚ) : Nat → Nat
  | 0 => 0
  | i + 1 => if st.getD i 0 ≤ time then i else findSegDown st time i

/-- `findSegmentAtTime` of `useSegmentSequencer.ts`. -/
def findSegmentAtTime (st : List ℚ) (time : ℚ) : Nat :=
  findSegDown st time st.length

/-- `seekToTime` of `useSegmentSequencer.ts` (lines 135-152), as the pure
resolution part: returns the target segment index and the in-segment
offset handed to the underlying player's `seek`.  `st.getD idx 0` models
the `segmentStartTimes[targetIndex] || 0` read. -/
def seekToTime (st : List ℚ) (totalDuration : ℚ) (time : ℚ) : Nat × ℚ :=
  let clampedTime := max 0 (min time totalDuration)
  let targetIndex := findSegmentAtTime st clampedTime
  (targetIndex, clampedTime - st.getD targetIndex 0)

/-! ## Sequencer state machine (`handleSegmentEnded`, `seekToSegment`) -/

/-- The sequencer-owned mutable cells: `currentSegmentIndex`,
`isAutoAdvancingRef`, and the underlying audio element's `paused` flag
(read by `seekToSegment`, written only by the media backend). -/
structure SeqState where
  currentSegmentIndex : Nat
  autoAdvancing : Bool
  audioPaused : Bool
  deriving DecidableEq, Repr

/-- Observable side effects of the sequencer. -/
inductive SeqEffect
  | loadSegment (i : Nat)
  | callSegmentChange (i : Nat)
  | schedulePlay (delayMs : Nat)
  | callComplete
  deriving DecidableEq, Repr

/-- `handleSegmentEnded` of `useSegmentSequencer.ts` lines 59-68 (identical
in `useSlideSequencer.ts` lines 85-94): advance and mark auto-advancing if
a next segment exists, else invoke the completion callback. -/
def handleSegmentEnded (len : Nat) (s : SeqState) : SeqState × List SeqEffect :=
  if s.currentSegmentIndex + 1 < len then
    ({ s with autoAdvancing := true,
              currentSegmentIndex := s.currentSegmentIndex + 1 }, [])
  else
    (s, [SeqEffect.callComplete])

/-- `seekToSegment` of `useSegmentSequencer.ts` lines 155-165.  The index is
a JS number, so out-of-range checks compare against `0` on `ℤ`. -/
def seekToSegment (len : Nat) (index : ℤ) (s : SeqState) : SeqState :=
  if index < 0 ∨ (len : ℤ) ≤ index then s
  else
    let wasPlaying := ¬ s.audioPaused
    { s with currentSegmentIndex := index.toNat,
             autoAdvancing := if wasPlaying then true else s.autoAdvancing }

/-- The `useEffect` on `currentSegmentIndex` (lines 101-119): load the new
segment, notify the caller, and if the auto-advance flag is set schedule a
`play()` after 50 ms and clear the flag. -/
def onIndexChange (len : Nat) (s : SeqState) : SeqState × List SeqEffect :=
  if len = 0 then (s, [])
  else if len ≤ s.currentSegmentIndex then (s, [])
  else if s.currentSegmentIndex = 0 ∧ s.autoAdvancing = false then (s, [])
  else
    ({ s with autoAdvancing := false },
      [SeqEffect.loadSegment s.currentSegmentIndex,
       SeqEffect.callSegmentChange s.currentSegmentIndex] ++
      (if s.autoAdvancing then [SeqEffect.schedulePlay 50] else []))

/-! ### Facts about the start-time table -/

lemma startTimesFrom_length (c : ℚ) (ds : List ℚ) :
    (startTimesFrom c ds).length = ds.length := by
  induction ds generalizing c with
  | nil => rfl
  | cons d ds ih => simp [startTimesFrom, ih]

lemma startTimesFrom_getD (c : ℚ) (ds : List ℚ) (j : Nat) (hj : j < ds.length) :
    (startTimesFrom c ds).getD j 0 = c + (ds.take j).sum := by
  induction ds generalizing c j with
  | nil => simp at hj
  | cons d ds ih =>
    cases j with
    | zero => simp [startTimesFrom]
    | succ j =>
      have hj' : j < ds.length := by simpa using hj
      simp only [startTimesFrom, List.getD_cons_succ, List.take_succ_cons, List.sum_cons,
        ih (c + d) j hj']
      ring

lemma segmentStartTimes_getD (ds : List ℚ) (j : Nat) (hj : j < ds.length) :
    (segmentStartTimes ds).getD j 0 = (ds.take j).sum := by
  simpa [segmentStartTimes] using startTimesFrom_getD 0 ds j hj

lemma sum_take_mono (ds : List ℚ) (hnn : ∀ d ∈ ds, 0 ≤ d) {j k : Nat} (hjk : j ≤ k) :
    (ds.take j).sum ≤ (ds.take k).sum := by
  have hk : k = j + (k - j) := by omega
  rw [hk, List.take_add, List.sum_append]
  have h2 : 0 ≤ (List.take (k - j) (List.drop j ds)).sum := by
    refine List.sum_nonneg fun x hx => ?_
    exact hnn x (List.drop_subset _ _ (List.take_subset _ _ hx))
  linarith

lemma sum_take_succ_getD (ds : List ℚ) (j : Nat) (hj : j < ds.length) :
    (ds.take (j + 1)).sum = (ds.take j).sum + ds.getD j 0 := by
  rw [List.sum_take_succ ds j hj, List.getD_eq_getElem ds 0 hj]

/-! ### Facts about the descending scan -/

lemma findSegDown_lt (st : List ℚ) (t : ℚ) (n : Nat) (hn : 0 < n) :
    findSegDown st t n < n := by
  induction n with
  | zero => omega
  | succ n ih =>
    by_cases h : st.getD n 0 ≤ t
    · simp only [findSegDown, if_pos h]; omega
    · simp only [findSegDown, if_neg h]
      rcases Nat.eq_zero_or_pos n with h0 | h0
      · subst h0; simp [findSegDown]
      · exact Nat.lt_succ_of_lt (ih h0)

lemma findSegDown_le (st : List ℚ) (t : ℚ) (n : Nat) (hn : 0 < n)
    (h0 : st.getD 0 0 ≤ t) :
    st.getD (findSegDown st t n) 0 ≤ t := by
  induction n with
  | zero => omega
  | succ n ih =>
    by_cases h : st.getD n 0 ≤ t
    · simp only [findSegDown, if_pos h]; exact h
    · simp only [findSegDown, if_neg h]
      rcases Nat.eq_zero_or_pos n with h0' | h0'
      · subst h0'; simpa [findSegDown] using h0
      · exact ih h0'

lemma findSegDown_max (st : List ℚ) (t : ℚ) (n : Nat) :
    ∀ j, findSegDown st t n < j → j < n → t < st.getD j 0 := by
  induction n with
  | zero => exact fun j h1 h2 => absurd h2 (Nat.not_lt_zero j)
  | succ n ih =>
    intro j h1 h2
    by_cases h : st.getD n 0 ≤ t
    · simp only [findSegDown, if_pos h] at h1; omega
    · simp only [findSegDown, if_neg h] at h1
      rcases Nat.lt_succ_iff_lt_or_eq.mp h2 with h2' | h2'
      · exact ih j h1 h2'
      · subst h2'; exact not_le.mp h

lemma segmentStartTimes_getD_zero_le (ds : List ℚ) (t : ℚ) (hpos : 0 < ds.length)
    (ht0 : 0 ≤ t) : (segmentStartTimes ds).getD 0 0 ≤ t := by
  rw [segmentStartTimes_getD ds 0 hpos]
  simpa using ht0

/-- **C2.** For every well-formed manifest (nonempty segment list,
nonnegative durations, `total = sum of durations`) and every `t ∈ [0, total]`,
`seekToTime t` (whose clamp of `t` into `[0, total]` is the identity here)
resolves to the unique segment index `i` with
`startTimes[i] ≤ t < startTimes[i] + durations[i]` — the last segment when
`t = total` — with in-segment offset `t - startTimes[i]`; in particular for
segment durations `[10000, 8000, 12000]` ms (i.e. `[10, 8, 12]` s),
`seekToTime 15.5` resolves to segment index `1` at offset `5.5` s. -/
theorem seekToTime_resolves_unique (ds : List ℚ) (total t : ℚ)
    (hne : ds ≠ []) (hnn : ∀ d ∈ ds, 0 ≤ d) (htot : total = ds.sum)
    (ht0 : 0 ≤ t) (ht1 : t ≤ total) :
    (seekToTime (segmentStartTimes ds) total t).1 < ds.length ∧
    (segmentStartTimes ds).getD (seekToTime (segmentStartTimes ds) total t).1 0 ≤ t ∧
    (t < total →
      t < (segmentStartTimes ds).getD (seekToTime (segmentStartTimes ds) total t).1 0
            + ds.getD (seekToTime (segmentStartTimes ds) total t).1 0) ∧
    (t = total → (seekToTime (segmentStartTimes ds) total t).1 = ds.length - 1) ∧
    (∀ j < ds.length,
       (segmentStartTimes ds).getD j 0 ≤ t →
       t < (segmentStartTimes ds).getD j 0 + ds.getD j 0 →
       j = (seekToTime (segmentStartTimes ds) total t).1) ∧
    (seekToTime (segmentStartTimes ds) total t).2
      = t - (segmentStartTimes ds).getD (seekToTime (segmentStartTimes ds) total t).1 0 ∧
    seekToTime (segmentStartTimes [10, 8, 12]) 30 (31/2) = (1, 11/2) := by
  have hpos : 0 < ds.length := List.length_pos.mpr hne
  have hlen : (segmentStartTimes ds).length = ds.length := startTimesFrom_length 0 ds
  have hclamp : max 0 (min t total) = t := by
    rw [min_eq_left ht1, max_eq_right ht0]
  have hr : seekToTime (segmentStartTimes ds) total t
      = (findSegDown (segmentStartTimes ds) t (segmentStartTimes ds).length,
         t - (segmentStartTimes ds).getD
               (findSegDown (segmentStartTimes ds) t (segmentStartTimes ds).length) 0) := by
    simp [seekToTime, findSegmentAtTime, hclamp]
  have h0le : (segmentStartTimes ds).getD 0 0 ≤ t :=
    segmentStartTimes_getD_zero_le ds t hpos ht0
  have hrlt : findSegDown (segmentStartTimes ds) t (segmentStartTimes ds).length
      < ds.length := by
    have := findSegDown_lt (segmentStartTimes ds) t (segmentStartTimes ds).length
      (by omega)
    omega
  set r := findSegDown (segmentStartTimes ds) t (segmentStartTimes ds).length with hrdef
  have hle : (segmentStartTimes ds).getD r 0 ≤ t :=
    findSegDown_le (segmentStartTimes ds) t (segmentStartTimes ds).length (by omega) h0le
  have hmax : ∀ j, r < j → j < (segmentStartTimes ds).length →
      t < (segmentStartTimes ds).getD j 0 :=
    findSegDown_max (segmentStartTimes ds) t (segmentStartTimes ds).length
  have hmem : t < total →
      t < (segmentStartTimes ds).getD r 0 + ds.getD r 0 := by
    intro htlt
    rcases Nat.lt_or_ge (r + 1) ds.length with hr1 | hr1
    · have hub := hmax (r + 1) (Nat.lt_succ_self r) (by omega)
      rw [segmentStartTimes_getD ds (r + 1) hr1, sum_take_succ_getD ds r hrlt,
        ← segmentStartTimes_getD ds r hrlt] at hub
      exact hub
    · have hrsucc : r + 1 = ds.length := by omega
      have hsum : total = (ds.take r).sum + ds.getD r 0 := by
        rw [htot, ← sum_take_succ_getD ds r hrlt, hrsucc, List.take_length]
      rw [segmentStartTimes_getD ds r hrlt]
      linarith
  have hlast : t = total → r = ds.length - 1 := by
    intro hteq
    by_contra hner
    have hrlt' : r < ds.length - 1 := by omega
    have hj := hmax (ds.length - 1) (by omega) (by omega)
    rw [segmentStartTimes_getD ds (ds.length - 1) (by omega)] at hj
    have hle' : (ds.take (ds.length - 1)).sum ≤ ds.sum := by
      conv_rhs => rw [← List.take_length ds]
      exact sum_take_mono ds hnn (by omega)
    rw [hteq, htot] at hj
    linarith
  have huniq : ∀ j < ds.length,
      (segmentStartTimes ds).getD j 0 ≤ t →
      t < (segmentStartTimes ds).getD j 0 + ds.getD j 0 → j = r := by
    intro j hj hj1 hj2
    rcases lt_trichotomy j r with hlt | heq | hgt
    · exfalso
      have hj1len : j + 1 < ds.length := by omega
      have hmono : (segmentStartTimes ds).getD (j + 1) 0
          ≤ (segmentStartTimes ds).getD r 0 := by
        rw [segmentStartTimes_getD ds (j + 1) hj1len, segmentStartTimes_getD ds r hrlt]
        exact sum_take_mono ds hnn (by omega)
      have hup : t < (segmentStartTimes ds).getD (j + 1) 0 := by
        rw [segmentStartTimes_getD ds (j + 1) hj1len, sum_take_succ_getD ds j hj,
          ← segmentStartTimes_getD ds j hj]
        exact hj2
      linarith
    · exact heq
    · exact absurd hj1 (not_le.mpr (hmax j hgt (by omega)))
  refine ⟨?_, ?_, ?_, ?_, ?_, ?_, ?_⟩
  · rw [hr]; exact hrlt
  · rw [hr]; exact hle
  · rw [hr]; exact hmem
  · rw [hr]; exact hlast
  · rw [hr]; exact fun j hj h1 h2 => huniq j hj h1 h2
  · rw [hr]
  · norm_num [seekToTime, segmentStartTimes, startTimesFrom, findSegmentAtTime,
      findSegDown, List.getD]

/-- Witness for C2 at the spec's example: durations `[10, 8, 12]` s,
`t = 15.5` s is in range, and the resolution is segment `1`, offset `5.5` s. -/
theorem seekToTime_resolves_unique_witness :
    (seekToTime (segmentStartTimes [10, 8, 12]) 30 (31/2)).1 < 3 ∧
    seekToTime (segmentStartTimes [10, 8, 12]) 30 (31/2) = (1, 11/2) := by
  have h := seekToTime_resolves_unique [10, 8, 12] 30 (31/2)
    (by simp) (by norm_num) (by norm_num) (by norm_num) (by norm_num)
  exact ⟨h.1, h.2.2.2.2.2.2⟩

/-- **C7 (counterexample).** The claim says that when the last segment ends
the sequencer "resets to segment 0 in a paused state".  With 3 segments and
`currentSegmentIndex = 2`, `handleSegmentEnded` invokes the completion
callback but leaves the state completely unchanged: the segment index stays
`2`, it is not reset to `0`. -/
theorem handleSegmentEnded_no_reset_counterexample :
    (handleSegmentEnded 3 (SeqState.mk 2 false true)).2 = [SeqEffect.callComplete] ∧
    (handleSegmentEnded 3 (SeqState.mk 2 false true)).1.currentSegmentIndex = 2 ∧
    ¬ (handleSegmentEnded 3 (SeqState.mk 2 false true)).1.currentSegmentIndex = 0 := by
  refine ⟨?_, ?_, ?_⟩ <;> decide

/-- **C7 (amended).** When a segment ends: if `index + 1 < length`, the
sequencer marks itself auto-advancing and sets
`currentSegmentIndex = index + 1` with no effect emitted; otherwise it
invokes the completion callback and leaves the sequencer state unchanged
(there is no reset to segment 0 — playback merely stops because the last
segment's audio has ended). -/
theorem handleSegmentEnded_behavior (len : Nat) (s : SeqState) :
    (s.currentSegmentIndex + 1 < len →
      handleSegmentEnded len s
        = ({ s with autoAdvancing := true,
                    currentSegmentIndex := s.currentSegmentIndex + 1 }, [])) ∧
    (¬ s.currentSegmentIndex + 1 < len →
      handleSegmentEnded len s = (s, [SeqEffect.callComplete])) := by
  constructor
  · intro h; simp [handleSegmentEnded, h]
  · intro h; simp [handleSegmentEnded, h]

/-- Witness for C7 (amended): advancing from segment 0 of 3, and ending the
last segment of 3. -/
theorem handleSegmentEnded_behavior_witness :
    handleSegmentEnded 3 (SeqState.mk 0 false true)
      = (SeqState.mk 1 true true, []) ∧
    handleSegmentEnded 3 (SeqState.mk 2 false true)
      = (SeqState.mk 2 false true, [SeqEffect.callComplete]) :=
  ⟨(handleSegmentEnded_behavior 3 (SeqState.mk 0 false true)).1 (by decide),
   (handleSegmentEnded_behavior 3 (SeqState.mk 2 false true)).2 (by decide)⟩

/-- **C9.** `seekToSegment i` is bounds-checked (indices outside
`[0, length)` leave the state untouched) and idempotent: any in-range call
sets `currentSegmentIndex = i` regardless of the prior index, repeated
calls are absorbed, and the play/pause intent is preserved across the
switch: the element's paused flag is untouched; when playing, the
auto-advance flag is set so the segment-change effect schedules a
`play()`, and when paused (with no auto-advance pending) no play is
scheduled. -/
theorem seekToSegment_bounds_idempotent (len : Nat) (index : ℤ) (s : SeqState) :
    (0 ≤ index → index < (len : ℤ) →
      (seekToSegment len index s).currentSegmentIndex = index.toNat) ∧
    (index < 0 ∨ (len : ℤ) ≤ index → seekToSegment len index s = s) ∧
    seekToSegment len index (seekToSegment len index s) = seekToSegment len index s ∧
    (seekToSegment len index s).audioPaused = s.audioPaused ∧
    (0 ≤ index → index < (len : ℤ) → s.audioPaused = false →
      (seekToSegment len index s).autoAdvancing = true) ∧
    (0 ≤ index → index < (len : ℤ) → s.audioPaused = true →
      (seekToSegment len index s).autoAdvancing = s.autoAdvancing) ∧
    (0 ≤ index → index < (len : ℤ) → s.audioPaused = false →
      SeqEffect.schedulePlay 50 ∈ (onIndexChange len (seekToSegment len index s)).2) ∧
    (s.audioPaused = true → s.autoAdvancing = false →
      SeqEffect.schedulePlay 50 ∉ (onIndexChange len (seekToSegment len index s)).2) := by
  by_cases hout : index < 0 ∨ (len : ℤ) ≤ index
  · refine ⟨fun h1 h2 => ?_, fun _ => ?_, ?_, ?_, fun h1 h2 _ => ?_, fun _ _ _ => ?_,
      fun h1 h2 _ => ?_, fun hp hf => ?_⟩
    · omega
    · simp [seekToSegment, hout]
    · simp [seekToSegment, hout]
    · simp [seekToSegment, hout]
    · omega
    · simp [seekToSegment, hout]
    · omega
    · have hs : seekToSegment len index s = s := by simp [seekToSegment, hout]
      rw [hs]
      rcases Nat.eq_zero_or_pos len with h0 | h0
      · simp [onIndexChange, h0]
      · have hlen0 : len ≠ 0 := by omega
        by_cases hlen : len ≤ s.currentSegmentIndex
        · simp [onIndexChange, hlen, hlen0]
        · by_cases hz : s.currentSegmentIndex = 0
          · simp [onIndexChange, hlen, hlen0, hz, hf]
          · simp [onIndexChange, hlen, hlen0, hz, hf]
  · push_neg at hout
    obtain ⟨h0, hlt⟩ := hout
    have hguard : ¬ (index < 0 ∨ (len : ℤ) ≤ index) := by omega
    have hlt' : index.toNat < len := by omega
    by_cases hp : s.audioPaused
    · refine ⟨fun _ _ => ?_, fun h => ?_, ?_, ?_, fun _ _ hq => ?_, fun _ _ _ => ?_,
        fun _ _ hq => ?_, fun _ hf => ?_⟩
      · simp [seekToSegment, hguard, hp]
      · omega
      · simp [seekToSegment, hguard, hp]
      · simp [seekToSegment, hguard, hp]
      · rw [hp] at hq; cases hq
      · simp [seekToSegment, hguard, hp]
      · rw [hp] at hq; cases hq
      · have hs : seekToSegment len index s
            = { s with currentSegmentIndex := index.toNat } := by
          simp [seekToSegment, hguard, hp]
        rw [hs]
        have hlen0 : len ≠ 0 := by omega
        by_cases hz : index.toNat = 0
        · simp [onIndexChange, hlen0, Nat.not_le.mpr hlt', hz, hf]
        · simp [onIndexChange, hlen0, Nat.not_le.mpr hlt', hz, hf]
    · have hpf : s.audioPaused = false := by simpa using hp
      refine ⟨fun _ _ => ?_, fun h => ?_, ?_, ?_, fun _ _ _ => ?_, fun _ _ hq => ?_,
        fun _ _ _ => ?_, fun hq _ => ?_⟩
      · simp [seekToSegment, hguard, hp]
      · omega
      · simp [seekToSegment, hguard, hp]
      · simp [seekToSegment, hguard, hp]
      · simp [seekToSegment, hguard, hp]
      · rw [hpf] at hq; cases hq
      · have hs : seekToSegment len index s
            = { s with currentSegmentIndex := index.toNat, autoAdvancing := true } := by
          simp [seekToSegment, hguard, hp]
        rw [hs]
        have hlen0 : len ≠ 0 := by omega
        simp [onIndexChange, hlen0, Nat.not_le.mpr hlt']
      · rw [hpf] at hq; cases hq

/-- Witness for C9: with 3 segments, seeking to segment 1 from segment 0
while playing (element not paused) lands on index 1 and schedules the
play that preserves the playing intent; seeking to segment 5 is rejected. -/
theorem seekToSegment_bounds_idempotent_witness :
    (seekToSegment 3 1 (SeqState.mk 0 false false)).currentSegmentIndex = 1 ∧
    seekToSegment 3 5 (SeqState.mk 0 false false) = SeqState.mk 0 false false ∧
    SeqEffect.schedulePlay 50
      ∈ (onIndexChange 3 (seekToSegment 3 1 (SeqState.mk 0 false false))).2 := by
  have h := seekToSegment_bounds_idempotent 3 1 (SeqState.mk 0 false false)
  have h5 := seekToSegment_bounds_idempotent 3 5 (SeqState.mk 0 false false)
  exact ⟨h.1 (by decide) (by decide),
    h5.2.1 (by decide),
    h.2.2.2.2.2.2.1 (by decide) (by decide) (by decide)⟩

/-! ## Realtime channel (`useWebSocket.ts`)

The hook keeps `wsRef` (the socket, possibly null), a pending reconnect
timer, and the `isConnected` / `isConnecting` flags.  `disconnect()`
(lines 100-113) clears the timer and closes the socket; the socket's
`onclose` handler (lines 67-78) marks disconnected and schedules a
reconnect whenever the `reconnect` option is not `false` — there is no
intentional-close flag anywhere in the hook. -/

/-- `WebSocket.readyState` values relevant to the hook. -/
inductive ReadyState
  | connecting
  | isOpen
  | closed
  deriving DecidableEq, Repr

/-- The hook's mutable cells: `wsRef` (`none` = null), the pending
reconnect timeout, and the two connection flags. -/
structure WSState where
  sock : Option ReadyState
  reconnectTimerPending : Bool
  isConnected : Bool
  isConnecting : Bool
  deriving DecidableEq, Repr

/-- Observable side effects of the channel hook. -/
inductive WSEffect
  | clearReconnectTimer
  | closeSocket
  | callOnDisconnect
  | scheduleReconnect (delayMs : Nat)
  deriving DecidableEq, Repr

/-- `disconnect` of `useWebSocket.ts` lines 100-113: clear any pending
reconnect timer, close and null the socket, mark disconnected. -/
def wsDisconnect (s : WSState) : WSState × List WSEffect :=
  ((WSState.mk none false false false),
   (if s.reconnectTimerPending then [WSEffect.clearReconnectTimer] else []) ++
   (if s.sock.isSome then [WSEffect.closeSocket] else []))

/-- The `ws.onclose` handler of `useWebSocket.ts` lines 67-78: mark
disconnected, invoke `onDisconnect`, and — whenever the `reconnect`
option is not `false` — schedule `connect()` after `reconnectInterval`
milliseconds.  The handler consults no other condition. -/
def wsOnClose (reconnectOpt : Bool) (reconnectInterval : Nat) (s : WSState) :
    WSState × List WSEffect :=
  if reconnectOpt then
    ({ s with isConnected := false, isConnecting := false,
              reconnectTimerPending := true },
     [WSEffect.callOnDisconnect, WSEffect.scheduleReconnect reconnectInterval])
  else
    ({ s with isConnected := false, isConnecting := false },
     [WSEffect.callOnDisconnect])

/-- `send` of `useWebSocket.ts` lines 115-121: transmits only while the
socket is open, else drops the message. -/
def wsSend (s : WSState) : Bool :=
  s.sock = some ReadyState.isOpen

/-- **C8 (counterexample).** The claim says `disconnect()` sets an
intentional-close flag so that no reconnect is ever scheduled for that
close.  The hook has no such flag: starting from a connected channel with
the `reconnect` option enabled (as `VoiceInterrupt.tsx` passes
`reconnect: true`), calling `disconnect()` and then delivering the close
event of the very socket it closed still schedules a reconnect after the
3000 ms backoff. -/
theorem wsDisconnect_reconnect_counterexample :
    (wsOnClose true 3000 (wsDisconnect (WSState.mk (some ReadyState.isOpen)
        false true false)).1).1.reconnectTimerPending = true ∧
    WSEffect.scheduleReconnect 3000
      ∈ (wsOnClose true 3000 (wsDisconnect (WSState.mk (some ReadyState.isOpen)
          false true false)).1).2 ∧
    WSEffect.closeSocket
      ∈ (wsDisconnect (WSState.mk (some ReadyState.isOpen) false true false)).2 := by
  refine ⟨?_, ?_, ?_⟩ <;> decide

/-- **C8 (amended).** `disconnect()` cancels any pending reconnect timer,
closes the socket and marks the channel disconnected, but sets no
intentional-close flag: the close event is handled identically for every
close, scheduling a reconnect after the fixed backoff exactly when the
`reconnect` option is enabled — including the close caused by
`disconnect()` itself. -/
theorem wsDisconnect_behavior (s : WSState) (opt : Bool) (interval : Nat) :
    (wsDisconnect s).1.reconnectTimerPending = false ∧
    (wsDisconnect s).1.isConnected = false ∧
    (wsDisconnect s).1.sock = none ∧
    (s.reconnectTimerPending = true →
      WSEffect.clearReconnectTimer ∈ (wsDisconnect s).2) ∧
    (s.sock.isSome → WSEffect.closeSocket ∈ (wsDisconnect s).2) ∧
    (WSEffect.scheduleReconnect interval ∈ (wsOnClose opt interval s).2 ↔ opt = true) ∧
    (opt = true → (wsOnClose opt interval (wsDisconnect s).1).1.reconnectTimerPending
      = true) := by
  refine ⟨rfl, rfl, rfl, fun h => ?_, fun h => ?_, ?_, fun h => ?_⟩
  · simp [wsDisconnect, h]
  · simp [wsDisconnect, h]
  · cases opt <;> simp [wsOnClose]
  · subst h; rfl

/-- Witness for C8 (amended) on a connected socket with a pending timer. -/
theorem wsDisconnect_behavior_witness :
    WSEffect.clearReconnectTimer
      ∈ (wsDisconnect (WSState.mk (some ReadyState.isOpen) true true false)).2 ∧
    (wsOnClose true 3000 (wsDisconnect (WSState.mk (some ReadyState.isOpen)
        true true false)).1).1.reconnectTimerPending = true := by
  have h := wsDisconnect_behavior (WSState.mk (some ReadyState.isOpen) true true false)
    true 3000
  exact ⟨h.2.2.2.1 (by decide), h.2.2.2.2.2.2 (by decide)⟩

/-! ## Voice interrupt state machine (`VoiceInterrupt.tsx`)

The component keeps its interrupt state both in React state and in a
synchronously readable mirror (`stateRef`); the model has a single `istate`
field, which is exactly the mirrored current value every handler consults.
The answer audio queue is `audioQueueRef` (a FIFO of base64 payload +
format), `isPlayingRef` flags an in-flight item, `pendingResumeRef` the
deferred resume, and `answerAudioRef.onended` is modelled by the
`onendedAttached` flag (detached on `stopAllAudio`). -/

/-- The interrupt states of `VoiceInterrupt.tsx` lines 7-13. -/
inductive IState
  | idle
  | listening
  | processing
  | answering
  | bridge
  | error
  deriving DecidableEq, Repr

/-- One entry of `audioQueueRef`: base64 audio data plus format string. -/
structure AudioItem where
  data : String
  format : String
  deriving DecidableEq, Repr

/-- The component's mutable cells plus the environment flags it reads
(`ws.isConnected`, the `disabled` prop, `speech.isSupported`).  Handlers
never write the three environment flags. -/
structure VIState where
  istate : IState
  answerText : String
  errorMsg : Option String
  pendingResume : Bool
  queue : List AudioItem
  isPlaying : Bool
  onendedAttached : Bool
  hasAudioElem : Bool
  transcript : String
  isSpaceHeld : Bool
  connected : Bool
  disabled : Bool
  supported : Bool
  deriving DecidableEq, Repr

/-- Observable side effects of the interrupt component, in the order the
handler body performs them. -/
inductive Effect
  | send (msgType : String)
  | sendQuestion (question : String)
  | callStart
  | callEnd
  | callAnswerAudio (data fmt : String)
  | callBridgeAudio (data text : String)
  | playAudio (item : AudioItem)
  | startCapture
  | stopCapture
  | pauseAnswerAudio
  | detachOnEnded
  | clearQueue
  | scheduleResume (delayMs : Nat)
  | scheduleErrorReset (delayMs : Nat)
  deriving DecidableEq, Repr

/-- `stopAllAudio` of `VoiceInterrupt.tsx` lines 57-69: pause and rewind the
answer element and null its `onended` handler (when the element exists),
then clear the queue and both flags. -/
def stopAllAudio (s : VIState) : VIState × List Effect :=
  ({ s with queue := [],
            isPlaying := false,
            pendingResume := false,
            onendedAttached := if s.hasAudioElem then false else s.onendedAttached },
   (if s.hasAudioElem then [Effect.pauseAnswerAudio, Effect.detachOnEnded] else []) ++
   [Effect.clearQueue])

/-- `processAudioQueue` of `VoiceInterrupt.tsx` lines 72-123 (the queue
drain).  If an item is playing or the queue is empty: when the queue is
empty with a pending resume, clear the flag and schedule the 1.5 s resume
timeout; otherwise do nothing.  Else pop the head, mark playing, attach
the completion handler and start playback. -/
def processAudioQueue (s : VIState) : VIState × List Effect :=
  if s.isPlaying ∨ s.queue = [] then
    if s.queue = [] ∧ s.pendingResume then
      ({ s with pendingResume := false }, [Effect.scheduleResume 1500])
    else
      (s, [])
  else if ¬ s.hasAudioElem then
    (s, [])
  else
    match s.queue with
    | [] => (s, [])
    | item :: rest =>
        ({ s with queue := rest, isPlaying := true, onendedAttached := true },
         [Effect.playAudio item])

/-- The body of the 1.5 s `setTimeout` inside `processAudioQueue` (lines
79-88): safety-pause the answer element, transition to `idle`, clear the
answer text and invoke the end callback. -/
def resumeTimerFired (s : VIState) : VIState × List Effect :=
  ({ s with istate := IState.idle, answerText := "" },
   (if s.hasAudioElem then [Effect.pauseAnswerAudio] else []) ++ [Effect.callEnd])

/-- The `audio.onended` completion handler (lines 111-116), firing only
while attached: mark not playing and recurse into the drain. -/
def audioEnded (s : VIState) : VIState × List Effect :=
  if s.onendedAttached then
    processAudioQueue { s with isPlaying := false }
  else
    (s, [])

/-- Iterated delivery of completion events, collecting effects in order. -/
def iterateEnded : Nat → VIState → VIState × List Effect
  | 0, s => (s, [])
  | n + 1, s =>
      let r := audioEnded s
      let r' := iterateEnded n r.1
      (r'.1, r.2 ++ r'.2)

/-- `queueAudio` of `VoiceInterrupt.tsx` lines 147-150: push onto the queue,
then trigger the drain. -/
def queueAudio (data fmt : String) (s : VIState) : VIState × List Effect :=
  processAudioQueue { s with queue := s.queue ++ [AudioItem.mk data fmt] }

/-- Inbound realtime-protocol messages handled by `handleMessage`.  The
acknowledgment and bridge messages carry an optional `format` field to
record that the handler ignores any such field. -/
inductive InMsg
  | connected
  | interruptionStarted
  | questionReceived
  | acknowledgmentAudio (text audioData : String) (fmt : Option String)
  | answerTextMsg (text : String)
  | synthesizingAudio
  | answerAudio (audioData fmt : String)
  | bridgeAudio (audioData text : String) (fmt : Option String)
  | readyToResume
  | interruptionCancelled
  | errorMsg (err : String)
  | pong
  | unknown
  deriving DecidableEq, Repr

/-- `handleMessage` of `VoiceInterrupt.tsx` lines 152-239, case by case. -/
def handleMessage (m : InMsg) (s : VIState) : VIState × List Effect :=
  match m with
  | InMsg.connected => (s, [])
  | InMsg.interruptionStarted =>
      if s.istate = IState.idle then
        ({ s with istate := IState.listening }, [])
      else
        (s, [])
  | InMsg.questionReceived =>
      ({ s with istate := IState.processing }, [])
  | InMsg.acknowledgmentAudio _ audioData _ =>
      queueAudio audioData "wav" s
  | InMsg.answerTextMsg text =>
      ({ s with answerText := text }, [])
  | InMsg.synthesizingAudio =>
      ({ s with istate := IState.answering }, [])
  | InMsg.answerAudio audioData fmt =>
      let r := queueAudio audioData fmt s
      (r.1, r.2 ++ [Effect.callAnswerAudio audioData fmt])
  | InMsg.bridgeAudio audioData text _ =>
      let r := queueAudio audioData "wav" { s with istate := IState.bridge }
      (r.1, r.2 ++ [Effect.callBridgeAudio audioData text])
  | InMsg.readyToResume =>
      if s.isPlaying ∨ s.queue ≠ [] then
        ({ s with pendingResume := true }, [])
      else
        ({ s with istate := IState.idle, answerText := "" }, [Effect.callEnd])
  | InMsg.interruptionCancelled =>
      let r := stopAllAudio s
      ({ r.1 with istate := IState.idle, answerText := "" }, r.2 ++ [Effect.callEnd])
  | InMsg.errorMsg err =>
      let r := stopAllAudio s
      ({ r.1 with errorMsg := some err, istate := IState.error },
       r.2 ++ [Effect.scheduleErrorReset 3000])
  | InMsg.pong => (s, [])
  | InMsg.unknown => (s, [])

/-- The body of the 3 s error `setTimeout` (lines 223-227): back to `idle`,
clear the error message, invoke the end callback. -/
def errorTimerFired (s : VIState) : VIState × List Effect :=
  ({ s with istate := IState.idle, errorMsg := none }, [Effect.callEnd])

/-- `startInterrupt` of `VoiceInterrupt.tsx` lines 308-321: rejected unless
the channel is connected, the component enabled and the state `idle`;
otherwise clear transient fields, transition to `listening`, notify the
caller, send `start_interruption` and begin speech capture.  (It performs
no `speech.isSupported` check.) -/
def startInterrupt (s : VIState) : VIState × List Effect :=
  if ¬ s.connected ∨ s.disabled then
    (s, [])
  else if s.istate ≠ IState.idle then
    (s, [])
  else
    ({ s with errorMsg := none, answerText := "", transcript := "",
              istate := IState.listening },
     [Effect.callStart, Effect.send "start_interruption", Effect.startCapture])

/-- JS `String.prototype.trim()`: strip leading and trailing whitespace.
(Defined over the character list so that it evaluates by kernel
reduction.) -/
def jsTrim (s : String) : String :=
  String.mk (((s.data.dropWhile Char.isWhitespace).reverse.dropWhile
    Char.isWhitespace).reverse)

/-- `finishAndSend` of `VoiceInterrupt.tsx` lines 283-305.  The effective
transcript is `transcriptRef.current.trim() || speech.transcript.trim()`
(JS `||` on strings: the first operand unless it is empty). -/
def finishAndSend (speechTranscript : String) (s : VIState) : VIState × List Effect :=
  let transcript :=
    if jsTrim s.transcript ≠ "" then jsTrim s.transcript else jsTrim speechTranscript
  if transcript ≠ "" ∧ s.istate = IState.listening then
    ({ s with istate := IState.processing, transcript := "" },
     [Effect.stopCapture, Effect.sendQuestion transcript])
  else if s.istate = IState.listening then
    let r := stopAllAudio s
    ({ r.1 with istate := IState.idle, answerText := "", transcript := "" },
     [Effect.stopCapture] ++ r.2 ++ [Effect.send "cancel_interruption", Effect.callEnd])
  else
    ({ s with transcript := "" }, [Effect.stopCapture])

/-- `cancelInterrupt` of `VoiceInterrupt.tsx` lines 324-332 (button click
while active): stop capture, stop audio, send the cancellation, reset to
`idle` and fire the end callback. -/
def cancelInterrupt (s : VIState) : VIState × List Effect :=
  let r := stopAllAudio s
  ({ r.1 with istate := IState.idle, answerText := "", transcript := "" },
   [Effect.stopCapture] ++ r.2 ++ [Effect.send "cancel_interruption", Effect.callEnd])

/-- `handleKeyDown` for Space (lines 336-350), after the input-target and
key-repeat guards: when the key is not already held and the state is
`idle`, record the hold and run `startInterrupt`. -/
def handleKeyDownSpace (s : VIState) : VIState × List Effect :=
  if ¬ s.isSpaceHeld ∧ s.istate = IState.idle then
    startInterrupt { s with isSpaceHeld := true }
  else
    (s, [])

/-- `handleKeyUp` for Space (lines 352-369): only if the hold was started
here; release the hold and, when still `listening`, finish and send. -/
def handleKeyUpSpace (speechTranscript : String) (s : VIState) : VIState × List Effect :=
  if ¬ s.isSpaceHeld then
    (s, [])
  else
    let s' := { s with isSpaceHeld := false }
    if s'.istate = IState.listening then
      finishAndSend speechTranscript s'
    else
      (s', [])

/-- The items started by `playAudio` effects, in emission order. -/
def playedOf : List Effect → List AudioItem
  | [] => []
  | Effect.playAudio item :: es => item :: playedOf es
  | _ :: es => playedOf es

/-! ### Queue-drain lemmas -/

lemma iterateEnded_full (q : List AudioItem) :
    ∀ (ist : IState) (atext : String) (emsg : Option String) (tr : String)
      (sh co di su : Bool),
    iterateEnded (q.length + 1)
        (VIState.mk ist atext emsg true q true true true tr sh co di su)
      = (VIState.mk ist atext emsg false [] false true true tr sh co di su,
         q.map Effect.playAudio ++ [Effect.scheduleResume 1500]) := by
  induction q with
  | nil =>
    intros ist atext emsg tr sh co di su
    simp [iterateEnded, audioEnded, processAudioQueue]
  | cons a t ih =>
    intros ist atext emsg tr sh co di su
    have h1 : iterateEnded ((a :: t).length + 1)
          (VIState.mk ist atext emsg true (a :: t) true true true tr sh co di su)
        = (let r := audioEnded
              (VIState.mk ist atext emsg true (a :: t) true true true tr sh co di su)
           let r' := iterateEnded (t.length + 1) r.1
           (r'.1, r.2 ++ r'.2)) := rfl
    have hstep : audioEnded
          (VIState.mk ist atext emsg true (a :: t) true true true tr sh co di su)
        = (VIState.mk ist atext emsg true t true true true tr sh co di su,
           [Effect.playAudio a]) := by
      simp [audioEnded, processAudioQueue]
    rw [h1]
    simp only [hstep, ih ist atext emsg tr sh co di su]
    simp

lemma iterateEnded_partial (k : Nat) :
    ∀ (q : List AudioItem), k ≤ q.length →
    ∀ (ist : IState) (atext : String) (emsg : Option String) (tr : String)
      (sh co di su : Bool),
    iterateEnded k (VIState.mk ist atext emsg true q true true true tr sh co di su)
      = (VIState.mk ist atext emsg true (q.drop k) true true true tr sh co di su,
         (q.take k).map Effect.playAudio) := by
  induction k with
  | zero =>
    intros q hk ist atext emsg tr sh co di su
    simp [iterateEnded]
  | succ k ih =>
    intro q hk
    cases q with
    | nil => simp at hk
    | cons a t =>
      intros ist atext emsg tr sh co di su
      have h1 : iterateEnded (k + 1)
            (VIState.mk ist atext emsg true (a :: t) true true true tr sh co di su)
          = (let r := audioEnded
                (VIState.mk ist atext emsg true (a :: t) true true true tr sh co di su)
             let r' := iterateEnded k r.1
             (r'.1, r.2 ++ r'.2)) := rfl
      have hstep : audioEnded
            (VIState.mk ist atext emsg true (a :: t) true true true tr sh co di su)
          = (VIState.mk ist atext emsg true t true true true tr sh co di su,
             [Effect.playAudio a]) := by
        simp [audioEnded, processAudioQueue]
      have hk' : k ≤ t.length := by simpa using hk
      rw [h1]
      simp only [hstep, ih t hk' ist atext emsg tr sh co di su]
      simp

/-- **C1.** A `ready_to_resume` arriving while an item is playing or the
queue is non-empty only sets the pending-resume flag (the interrupt state
does not change, no end callback fires); with the queue empty and nothing
playing it transitions to `idle`, clears the answer text and fires the end
callback immediately.  While the flag is set, delivering the completion
events of the playing item and of each queued item plays the queue strictly
in order with the state and flag untouched; the final completion clears the
flag and schedules the resume after the fixed 1500 ms grace interval, and
the scheduled resume body performs the idle transition, answer-text clear
and end callback. -/
theorem readyToResume_defers_until_drained :
    (∀ s : VIState, s.isPlaying = true ∨ s.queue ≠ [] →
      handleMessage InMsg.readyToResume s = ({ s with pendingResume := true }, [])) ∧
    (∀ s : VIState, s.isPlaying = false → s.queue = [] →
      handleMessage InMsg.readyToResume s
        = ({ s with istate := IState.idle, answerText := "" }, [Effect.callEnd])) ∧
    (∀ (q : List AudioItem) (ist : IState) (atext : String) (emsg : Option String)
       (tr : String) (sh co di su : Bool),
      iterateEnded (q.length + 1)
          (VIState.mk ist atext emsg true q true true true tr sh co di su)
        = (VIState.mk ist atext emsg false [] false true true tr sh co di su,
           q.map Effect.playAudio ++ [Effect.scheduleResume 1500]) ∧
      (∀ k ≤ q.length,
        iterateEnded k (VIState.mk ist atext emsg true q true true true tr sh co di su)
          = (VIState.mk ist atext emsg true (q.drop k) true true true tr sh co di su,
             (q.take k).map Effect.playAudio))) ∧
    (∀ s : VIState,
      (resumeTimerFired s).1.istate = IState.idle ∧
      (resumeTimerFired s).1.answerText = "" ∧
      Effect.callEnd ∈ (resumeTimerFired s).2) := by
  refine ⟨?_, ?_, ?_, ?_⟩
  · intro s h
    have h' : s.isPlaying = true ∨ ¬ s.queue = [] := by
      rcases h with h | h
      · exact Or.inl h
      · exact Or.inr h
    simp only [handleMessage]
    rw [if_pos]
    simpa using h'
  · intro s h1 h2
    simp only [handleMessage]
    rw [if_neg]
    simp [h1, h2]
  · intro q ist atext emsg tr sh co di su
    exact ⟨iterateEnded_full q ist atext emsg tr sh co di su,
      fun k hk => iterateEnded_partial k q hk ist atext emsg tr sh co di su⟩
  · intro s
    refine ⟨rfl, rfl, ?_⟩
    by_cases h : s.hasAudioElem <;> simp [resumeTimerFired, h]

/-- Witness for C1 on concrete states: a busy state (one playing item, one
queued) defers with the flag set; an empty, non-playing state resumes
immediately; the two completion events drain the one-item queue and
schedule the 1500 ms resume; the timer body reaches `idle`. -/
theorem readyToResume_defers_until_drained_witness :
    handleMessage InMsg.readyToResume
        (VIState.mk IState.answering "a" none false [AudioItem.mk "d" "wav"]
          true true true "" false true false true)
      = (VIState.mk IState.answering "a" none true [AudioItem.mk "d" "wav"]
          true true true "" false true false true, []) ∧
    handleMessage InMsg.readyToResume
        (VIState.mk IState.answering "a" none false [] false true true "" false
          true false true)
      = (VIState.mk IState.idle "" none false [] false true true "" false
          true false true, [Effect.callEnd]) ∧
    iterateEnded 2
        (VIState.mk IState.answering "a" none true [AudioItem.mk "d" "wav"]
          true true true "" false true false true)
      = (VIState.mk IState.answering "a" none false [] false true true "" false
          true false true,
         [Effect.playAudio (AudioItem.mk "d" "wav"), Effect.scheduleResume 1500]) ∧
    (resumeTimerFired (VIState.mk IState.answering "a" none false [] false true true
        "" false true false true)).1.istate = IState.idle := by
  obtain ⟨h1, h2, h3, h4⟩ := readyToResume_defers_until_drained
  refine ⟨?_, ?_, ?_, ?_⟩
  · exact h1 _ (Or.inr (by decide))
  · exact h2 _ (by decide) (by decide)
  · exact (h3 [AudioItem.mk "d" "wav"] IState.answering "a" none "" false true
      false true).1
  · exact (h4 _).1

/-- **C3 (counterexample).** The claim says a local start is honored only
when, among other conditions, speech recognition is supported.
`startInterrupt` checks `ws.isConnected`, `disabled` and the mirrored state
— but never `speech.isSupported` (only the button element disables itself
on `!speech.isSupported`; the spacebar path does not).  In an idle,
connected, enabled state with `supported = false`, pressing Space honors
the start: the state becomes `listening` and `start_interruption` is
sent. -/
theorem startInterrupt_ignores_supported_counterexample :
    (VIState.mk IState.idle "" none false [] false false true "" false
        true false false).supported = false ∧
    (handleKeyDownSpace (VIState.mk IState.idle "" none false [] false false true ""
        false true false false)).1.istate = IState.listening ∧
    Effect.send "start_interruption"
      ∈ (handleKeyDownSpace (VIState.mk IState.idle "" none false [] false false true ""
          false true false false)).2 := by
  refine ⟨rfl, ?_, ?_⟩ <;> decide

/-- **C3 (amended).** A local start action is honored exactly when the
interrupt state is `idle`, the channel is connected and the component is
not disabled — speech-recognition support is not consulted by the start
action itself (only the button UI disables itself when unsupported).  When
honored it transitions to `listening`, notifies the caller, sends
`start_interruption` and begins speech capture; when the channel is
disconnected the start is rejected with no state change and no message
sent.  The Space keydown handler runs the start action only from `idle`
with the key not already held. -/
theorem startInterrupt_guards (s : VIState) :
    (s.connected = false → startInterrupt s = (s, [])) ∧
    (s.disabled = true → startInterrupt s = (s, [])) ∧
    (s.istate ≠ IState.idle → startInterrupt s = (s, [])) ∧
    (s.connected = true → s.disabled = false → s.istate = IState.idle →
      startInterrupt s
        = ({ s with errorMsg := none, answerText := "", transcript := "",
                    istate := IState.listening },
           [Effect.callStart, Effect.send "start_interruption",
            Effect.startCapture])) ∧
    (s.isSpaceHeld = false → s.istate = IState.idle →
      handleKeyDownSpace s = startInterrupt { s with isSpaceHeld := true }) ∧
    (s.isSpaceHeld = true → handleKeyDownSpace s = (s, [])) := by
  refine ⟨fun h => ?_, fun h => ?_, fun h => ?_, fun h1 h2 h3 => ?_,
    fun h1 h2 => ?_, fun h => ?_⟩
  · simp [startInterrupt, h]
  · simp [startInterrupt, h]
  · rw [startInterrupt]
    by_cases hc : ¬ s.connected ∨ s.disabled
    · rw [if_pos hc]
    · rw [if_neg hc, if_pos h]
  · simp [startInterrupt, h1, h2, h3]
  · simp [handleKeyDownSpace, h1, h2]
  · simp [handleKeyDownSpace, h]

/-- Witness for C3 (amended): a disconnected start is rejected unchanged; a
connected, enabled, idle start transitions to `listening` and sends the
start message. -/
theorem startInterrupt_guards_witness :
    startInterrupt (VIState.mk IState.idle "" none false [] false false true ""
        false false false true)
      = (VIState.mk IState.idle "" none false [] false false true ""
          false false false true, []) ∧
    startInterrupt (VIState.mk IState.idle "x" none false [] false false true "y"
        false true false true)
      = (VIState.mk IState.listening "" none false [] false false true ""
          false true false true,
         [Effect.callStart, Effect.send "start_interruption",
          Effect.startCapture]) := by
  have hd := startInterrupt_guards (VIState.mk IState.idle "" none false [] false false
    true "" false false false true)
  have hc := startInterrupt_guards (VIState.mk IState.idle "x" none false [] false false
    true "y" false true false true)
  refine ⟨hd.1 rfl, ?_⟩
  rw [hc.2.2.2.1 rfl rfl rfl]

/-- **C4.** A local finish sends a question exactly when the effective
transcript (the held transcript, else the recognizer's) is non-empty and
the state is `listening`; with an empty transcript while `listening` it
stops capture, empties the answer queue, sends `cancel_interruption`,
clears the answer text, returns to `idle` and invokes the end callback
exactly once; in any non-`listening` state it only stops capture and
clears the held transcript. -/
theorem finishAndSend_question_or_cancel (speechTranscript : String) (s : VIState) :
    ((∃ q, Effect.sendQuestion q ∈ (finishAndSend speechTranscript s).2) ↔
      ((if jsTrim s.transcript ≠ "" then jsTrim s.transcript
        else jsTrim speechTranscript) ≠ "" ∧ s.istate = IState.listening)) ∧
    ((if jsTrim s.transcript ≠ "" then jsTrim s.transcript
      else jsTrim speechTranscript) = "" → s.istate = IState.listening →
      (finishAndSend speechTranscript s).1.queue = [] ∧
      (finishAndSend speechTranscript s).1.istate = IState.idle ∧
      (finishAndSend speechTranscript s).1.answerText = "" ∧
      (finishAndSend speechTranscript s).1.pendingResume = false ∧
      Effect.stopCapture ∈ (finishAndSend speechTranscript s).2 ∧
      Effect.send "cancel_interruption" ∈ (finishAndSend speechTranscript s).2 ∧
      ((finishAndSend speechTranscript s).2.count Effect.callEnd) = 1) ∧
    (s.istate ≠ IState.listening →
      finishAndSend speechTranscript s
        = ({ s with transcript := "" }, [Effect.stopCapture])) := by
  refine ⟨?_, fun hemp hlis => ?_, fun hnl => ?_⟩
  · constructor
    · rintro ⟨q, hq⟩
      by_cases hcond : (if jsTrim s.transcript ≠ "" then jsTrim s.transcript
          else jsTrim speechTranscript) ≠ "" ∧ s.istate = IState.listening
      · exact hcond
      · exfalso
        rw [finishAndSend] at hq
        rw [if_neg hcond] at hq
        by_cases hl : s.istate = IState.listening
        · rw [if_pos hl] at hq
          by_cases he : s.hasAudioElem <;>
            simp [stopAllAudio, he] at hq
        · rw [if_neg hl] at hq
          simp at hq
    · rintro ⟨hne, hl⟩
      refine ⟨(if jsTrim s.transcript ≠ "" then jsTrim s.transcript
        else jsTrim speechTranscript), ?_⟩
      rw [finishAndSend, if_pos ⟨hne, hl⟩]
      simp
  · have hcond : ¬ ((if jsTrim s.transcript ≠ "" then jsTrim s.transcript
        else jsTrim speechTranscript) ≠ "" ∧ s.istate = IState.listening) := by
      intro h; exact h.1 hemp
    rw [finishAndSend, if_neg hcond, if_pos hlis]
    refine ⟨by simp [stopAllAudio], rfl, rfl, by simp [stopAllAudio], by simp, ?_, ?_⟩
    · by_cases he : s.hasAudioElem <;> simp [stopAllAudio, he]
    · by_cases he : s.hasAudioElem <;> simp [stopAllAudio, he, List.count_cons,
        List.count_append]
  · have hcond : ¬ ((if jsTrim s.transcript ≠ "" then jsTrim s.transcript
        else jsTrim speechTranscript) ≠ "" ∧ s.istate = IState.listening) := by
      intro h; exact hnl h.2
    rw [finishAndSend, if_neg hcond, if_neg hnl]

/-- Witness for C4: an empty-transcript release while `listening` cancels
(end callback fired exactly once), and a non-empty transcript sends the
question. -/
theorem finishAndSend_question_or_cancel_witness :
    ((finishAndSend "" (VIState.mk IState.listening "a" none false [] false false true
        "" true true false true)).2.count Effect.callEnd) = 1 ∧
    (∃ q, Effect.sendQuestion q
      ∈ (finishAndSend "" (VIState.mk IState.listening "a" none false [] false false
          true "hi" true true false true)).2) := by
  have h1 := finishAndSend_question_or_cancel "" (VIState.mk IState.listening "a" none
    false [] false false true "" true true false true)
  have h2 := finishAndSend_question_or_cancel "" (VIState.mk IState.listening "a" none
    false [] false false true "hi" true true false true)
  refine ⟨(h1.2.1 (by decide) rfl).2.2.2.2.2.2, h2.1.mpr ⟨by decide, rfl⟩⟩

/-- **C5 (counterexample).** The claim says cancellation and inbound error
both unconditionally stop speech capture and reset the answer text.  On a
state with `answerText = "hello"`, the inbound `error` handler leaves the
answer text as `"hello"` (it never clears it), and neither the
`interruption_cancelled` nor the `error` handler emits any stop-capture
action. -/
theorem cancelError_no_stopCapture_counterexample :
    (handleMessage (InMsg.errorMsg "boom")
        (VIState.mk IState.answering "hello" none true [AudioItem.mk "d" "wav"]
          true true true "" false true false true)).1.answerText = "hello" ∧
    Effect.stopCapture
      ∉ (handleMessage (InMsg.errorMsg "boom")
          (VIState.mk IState.answering "hello" none true [AudioItem.mk "d" "wav"]
            true true true "" false true false true)).2 ∧
    Effect.stopCapture
      ∉ (handleMessage InMsg.interruptionCancelled
          (VIState.mk IState.answering "hello" none true [AudioItem.mk "d" "wav"]
            true true true "" false true false true)).2 := by
  refine ⟨?_, ?_, ?_⟩ <;> decide

/-- **C5 (amended).** Inbound `interruption_cancelled` and inbound `error`
both stop answer-audio playback and clear the queue and the pending-resume
flag, but stop no speech capture.  Cancellation additionally clears the
answer text, returns to `idle` and fires the end callback.  Error keeps
the answer text unchanged, records the message, transitions to `error` and
schedules the fixed 3000 ms auto-return whose body re-enters `idle`,
clears the error and fires the end callback. -/
theorem cancelError_clear_queue (s : VIState) (err : String) :
    ((handleMessage InMsg.interruptionCancelled s).1.queue = [] ∧
     (handleMessage InMsg.interruptionCancelled s).1.isPlaying = false ∧
     (handleMessage InMsg.interruptionCancelled s).1.pendingResume = false ∧
     (handleMessage InMsg.interruptionCancelled s).1.istate = IState.idle ∧
     (handleMessage InMsg.interruptionCancelled s).1.answerText = "" ∧
     Effect.callEnd ∈ (handleMessage InMsg.interruptionCancelled s).2 ∧
     Effect.stopCapture ∉ (handleMessage InMsg.interruptionCancelled s).2) ∧
    ((handleMessage (InMsg.errorMsg err) s).1.queue = [] ∧
     (handleMessage (InMsg.errorMsg err) s).1.isPlaying = false ∧
     (handleMessage (InMsg.errorMsg err) s).1.pendingResume = false ∧
     (handleMessage (InMsg.errorMsg err) s).1.istate = IState.error ∧
     (handleMessage (InMsg.errorMsg err) s).1.errorMsg = some err ∧
     (handleMessage (InMsg.errorMsg err) s).1.answerText = s.answerText ∧
     Effect.scheduleErrorReset 3000 ∈ (handleMessage (InMsg.errorMsg err) s).2 ∧
     Effect.stopCapture ∉ (handleMessage (InMsg.errorMsg err) s).2) ∧
    ((errorTimerFired s).1.istate = IState.idle ∧
     (errorTimerFired s).1.errorMsg = none ∧
     Effect.callEnd ∈ (errorTimerFired s).2) := by
  refine ⟨⟨rfl, rfl, rfl, rfl, rfl, ?_, ?_⟩, ⟨rfl, rfl, rfl, rfl, rfl, rfl, ?_, ?_⟩,
    rfl, rfl, by simp [errorTimerFired]⟩
  · by_cases he : s.hasAudioElem <;> simp [handleMessage, stopAllAudio, he]
  · by_cases he : s.hasAudioElem <;> simp [handleMessage, stopAllAudio, he]
  · by_cases he : s.hasAudioElem <;> simp [handleMessage, stopAllAudio, he]
  · by_cases he : s.hasAudioElem <;> simp [handleMessage, stopAllAudio, he]

/-- Witness for C5 (amended) — the amended theorem at a busy answering
state (here with no `Prop` hypotheses; instantiated for concreteness). -/
theorem cancelError_clear_queue_witness :
    (handleMessage InMsg.interruptionCancelled
        (VIState.mk IState.answering "hello" none true [AudioItem.mk "d" "wav"]
          true true true "" false true false true)).1.queue = [] ∧
    (handleMessage (InMsg.errorMsg "boom")
        (VIState.mk IState.answering "hello" none true [AudioItem.mk "d" "wav"]
          true true true "" false true false true)).1.istate = IState.error := by
  have h := cancelError_clear_queue
    (VIState.mk IState.answering "hello" none true [AudioItem.mk "d" "wav"]
      true true true "" false true false true) "boom"
  exact ⟨h.1.1, h.2.1.2.2.2.1⟩

/-! ### Queue conservation -/

lemma playedOf_append (es es' : List Effect) :
    playedOf (es ++ es') = playedOf es ++ playedOf es' := by
  induction es with
  | nil => rfl
  | cons e es ih => cases e <;> simp [playedOf, ih]

lemma processAudioQueue_conserves (s : VIState) :
    s.queue = playedOf (processAudioQueue s).2 ++ (processAudioQueue s).1.queue := by
  rw [processAudioQueue]
  by_cases h1 : s.isPlaying = true ∨ s.queue = []
  · rw [if_pos (by simpa using h1)]
    by_cases h2 : s.queue = [] ∧ s.pendingResume = true
    · rw [if_pos (by simpa using h2)]
      simp [playedOf, h2.1]
    · rw [if_neg (by simpa using h2)]
      simp [playedOf]
  · rw [if_neg (by simpa using h1)]
    by_cases h3 : s.hasAudioElem
    · rw [if_neg (by simpa using h3)]
      push_neg at h1
      obtain ⟨-, hq⟩ := h1
      match hm : s.queue with
      | [] => exact absurd hm hq
      | item :: rest => simp [playedOf]
    · rw [if_pos (by simpa using h3)]
      simp [playedOf]

/-- **C10.** Inbound `acknowledgment_audio` and `bridge_audio` enqueue
their payload with the hard-coded format `"wav"` — the appended queue item
is the same whatever `format` field the message carries — while
`answer_audio` enqueues with the format carried by the message.  (The
conservation form `old queue ++ [new item] = items played ++ new queue`
pins down the item that was appended before the drain ran.) -/
theorem ackBridge_hardcode_wav (s : VIState) (text audioData fmt : String)
    (optFmt optFmt' : Option String) :
    (handleMessage (InMsg.acknowledgmentAudio text audioData optFmt) s
      = handleMessage (InMsg.acknowledgmentAudio text audioData optFmt') s) ∧
    (s.queue ++ [AudioItem.mk audioData "wav"]
      = playedOf (handleMessage (InMsg.acknowledgmentAudio text audioData optFmt) s).2
        ++ (handleMessage (InMsg.acknowledgmentAudio text audioData optFmt) s).1.queue) ∧
    ((handleMessage (InMsg.bridgeAudio audioData text optFmt) s).1
      = (handleMessage (InMsg.bridgeAudio audioData text optFmt') s).1) ∧
    (s.queue ++ [AudioItem.mk audioData "wav"]
      = playedOf (handleMessage (InMsg.bridgeAudio audioData text optFmt) s).2
        ++ (handleMessage (InMsg.bridgeAudio audioData text optFmt) s).1.queue) ∧
    (s.queue ++ [AudioItem.mk audioData fmt]
      = playedOf (handleMessage (InMsg.answerAudio audioData fmt) s).2
        ++ (handleMessage (InMsg.answerAudio audioData fmt) s).1.queue) := by
  refine ⟨rfl, ?_, rfl, ?_, ?_⟩
  · have h := processAudioQueue_conserves
      { s with queue := s.queue ++ [AudioItem.mk audioData "wav"] }
    simpa [handleMessage, queueAudio] using h
  · have h := processAudioQueue_conserves
      { s with istate := IState.bridge,
               queue := s.queue ++ [AudioItem.mk audioData "wav"] }
    simp only [handleMessage, queueAudio, playedOf_append]
    simpa [playedOf] using h
  · have h := processAudioQueue_conserves
      { s with queue := s.queue ++ [AudioItem.mk audioData fmt] }
    simp only [handleMessage, queueAudio, playedOf_append]
    simpa [playedOf] using h

/-- Witness for C10: with a busy player, an acknowledgment carrying a
contrary `format: "mp3"` field still appends a `"wav"` item. -/
theorem ackBridge_hardcode_wav_witness :
    (VIState.mk IState.processing "" none false [] true true true "" false
        true false true).queue ++ [AudioItem.mk "d" "wav"]
      = playedOf (handleMessage (InMsg.acknowledgmentAudio "ok" "d" (some "mp3"))
          (VIState.mk IState.processing "" none false [] true true true "" false
            true false true)).2
        ++ (handleMessage (InMsg.acknowledgmentAudio "ok" "d" (some "mp3"))
            (VIState.mk IState.processing "" none false [] true true true "" false
              true false true)).1.queue :=
  (ackBridge_hardcode_wav
    (VIState.mk IState.processing "" none false [] true true true "" false
      true false true) "ok" "d" "mp3" (some "mp3") none).2.1

/-- **C6.** The answer audio queue never plays two items concurrently: a
drain while an item is playing starts no playback and leaves the queue
untouched (with a non-empty queue it is a strict no-op).  Items play
strictly FIFO: a drain from a non-playing state pops exactly the head, and
every drain satisfies `old queue = items played ++ new queue`, as does an
enqueue with its appended item — so no item is dropped unplayed — except
through `stopAllAudio`, which empties the queue after detaching the
completion handler (its effect order is pause, detach, clear), so that a
late completion event after `stopAllAudio` is a no-op and cannot
re-trigger the drain. -/
theorem audioQueue_fifo_no_concurrent :
    (∀ s : VIState, s.isPlaying = true →
      playedOf (processAudioQueue s).2 = [] ∧
      (processAudioQueue s).1.queue = s.queue ∧
      (s.queue ≠ [] → processAudioQueue s = (s, []))) ∧
    (∀ s : VIState,
      s.queue = playedOf (processAudioQueue s).2 ++ (processAudioQueue s).1.queue) ∧
    (∀ (s : VIState) (d f : String),
      s.queue ++ [AudioItem.mk d f]
        = playedOf (queueAudio d f s).2 ++ (queueAudio d f s).1.queue) ∧
    (∀ (s : VIState) (a : AudioItem) (rest : List AudioItem),
      s.isPlaying = false → s.hasAudioElem = true → s.queue = a :: rest →
      processAudioQueue s
        = ({ s with queue := rest, isPlaying := true, onendedAttached := true },
           [Effect.playAudio a])) ∧
    (∀ s : VIState,
      (stopAllAudio s).1.queue = [] ∧
      (stopAllAudio s).1.isPlaying = false ∧
      (stopAllAudio s).1.pendingResume = false ∧
      (s.hasAudioElem = true →
        (stopAllAudio s).2
          = [Effect.pauseAnswerAudio, Effect.detachOnEnded, Effect.clearQueue]) ∧
      (s.hasAudioElem = true →
        audioEnded (stopAllAudio s).1 = ((stopAllAudio s).1, []))) := by
  refine ⟨fun s hP => ⟨?_, ?_, fun hq => ?_⟩, processAudioQueue_conserves,
    fun s d f => ?_, fun s a rest hP hE hq => ?_,
    fun s => ⟨rfl, rfl, rfl, fun hE => ?_, fun hE => ?_⟩⟩
  · rw [processAudioQueue, if_pos (Or.inl hP)]
    by_cases h2 : s.queue = [] ∧ s.pendingResume = true
    · rw [if_pos (by simpa using h2)]; rfl
    · rw [if_neg (by simpa using h2)]; rfl
  · rw [processAudioQueue, if_pos (Or.inl hP)]
    by_cases h2 : s.queue = [] ∧ s.pendingResume = true
    · rw [if_pos (by simpa using h2)]
    · rw [if_neg (by simpa using h2)]
  · rw [processAudioQueue, if_pos (Or.inl hP)]
    rw [if_neg (by simp [hq])]
  · exact processAudioQueue_conserves { s with queue := s.queue ++ [AudioItem.mk d f] }
  · rw [processAudioQueue, hq]
    rw [if_neg (by simp [hP]), if_neg (by simp [hE])]
  · simp [stopAllAudio, hE]
  · simp [audioEnded, stopAllAudio, hE]

/-- Witness for C6: a drain while playing with a queued item is a no-op; a
drain from a non-playing state pops the head; after `stopAllAudio` the
queue is empty, the effect order is pause-detach-clear, and a late
completion event does nothing. -/
theorem audioQueue_fifo_no_concurrent_witness :
    processAudioQueue (VIState.mk IState.answering "" none false
        [AudioItem.mk "d" "wav"] true true true "" false true false true)
      = (VIState.mk IState.answering "" none false
          [AudioItem.mk "d" "wav"] true true true "" false true false true, []) ∧
    processAudioQueue (VIState.mk IState.answering "" none false
        [AudioItem.mk "d" "wav"] false false true "" false true false true)
      = (VIState.mk IState.answering "" none false [] true true true "" false
          true false true, [Effect.playAudio (AudioItem.mk "d" "wav")]) ∧
    (stopAllAudio (VIState.mk IState.answering "" none true
        [AudioItem.mk "d" "wav"] true true true "" false true false true)).2
      = [Effect.pauseAnswerAudio, Effect.detachOnEnded, Effect.clearQueue] ∧
    audioEnded (stopAllAudio (VIState.mk IState.answering "" none true
        [AudioItem.mk "d" "wav"] true true true "" false true false true)).1
      = ((stopAllAudio (VIState.mk IState.answering "" none true
          [AudioItem.mk "d" "wav"] true true true "" false true false true)).1,
         []) := by
  obtain ⟨h1, _, _, h4, h5⟩ := audioQueue_fifo_no_concurrent
  refine ⟨(h1 _ rfl).2.2 (by decide), ?_, (h5 _).2.2.2.1 rfl, (h5 _).2.2.2.2 rfl⟩
  exact h4 _ (AudioItem.mk "d" "wav") [] rfl rfl rfl

end Awdio
